import Mathlib

/-!
# Verification of the greenrun random-value generator

A shallow embedding of `greenrun.go`: a type-directed recursive generator that
fills Go values with random data.  Go reflection is modelled by an explicit
universe of type descriptors (`GoType`) and value trees (`GoValue`); the
mutable `*rand.Rand` stream is modelled as an infinite sequence of raw
natural-number draws threaded through every operation; Go panics are modelled
as `Except.error`.  User-supplied custom functions (`Funcs` overrides, the
`Interface` self-generation capability, and built-in defaults) are modelled as
opaque transformations of their first argument and the random stream.
-/

namespace Greenrun

/-- Model of the mutable pseudo-random stream `*rand.Rand`: an infinite
sequence of raw natural-number draws.  Each primitive draw consumes the head
and continues with the tail. -/
def RandS : Type := Nat → Nat

/-- The next raw draw of the stream. -/
def rhead (s : RandS) : Nat := s 0

/-- The stream after one draw has been consumed. -/
def rtail (s : RandS) : RandS := fun i => s (i + 1)

/-- Model of `rand.Float64()`: a rational on the `2 ^ 53` grid of `[0, 1)`
(Go returns a `float64` in `[0, 1)`; in particular the draw `0` is possible,
which is what matters below). -/
def randFloat64 (s : RandS) : Rat × RandS :=
  (((rhead s % 2 ^ 53 : Nat) : Rat) / ((2 ^ 53 : Nat) : Rat), rtail s)

/-- Model of `rand.Intn(n)` for a positive bound: a uniform draw in `[0, n)`. -/
def randIntn (n : Nat) (s : RandS) : Nat × RandS := (rhead s % n, rtail s)

/-- Model of `rand.Int63n(n)` for a positive `int64` bound. -/
def randInt63n (n : Int) (s : RandS) : Int × RandS :=
  (((rhead s % n.toNat : Nat) : Int), rtail s)

/-- Model of `rand.Uint32()`. -/
def randUint32 (s : RandS) : Nat × RandS := (rhead s % 2 ^ 32, rtail s)

/-- Model of `rand.Int()`: a nonnegative 63-bit integer. -/
def randInt (s : RandS) : Nat × RandS := (rhead s % 2 ^ 63, rtail s)

/-- Model of `randUint64`: `uint64(r.Uint32())<<32 | uint64(r.Uint32())`. -/
def randUint64 (s : RandS) : Nat × RandS :=
  let (hi, s₁) := randUint32 s
  let (lo, s₂) := randUint32 s₁
  ((hi <<< 32) ||| lo, s₂)

/-- Reinterpretation of an unsigned 64-bit pattern as `int64`
(`int64(randUint64(r))` in `greenrunInt`). -/
def toInt64 (u : Nat) : Int :=
  if u < 2 ^ 63 then (u : Int) else (u : Int) - 2 ^ 64

/-- Model of `randBool`: `r.Int()&1 == 1`. -/
def randBool (s : RandS) : Bool × RandS :=
  let (n, s₁) := randInt s
  (n &&& 1 == 1, s₁)

/-- Model of `charRange`: a half-open range of unicode code points (runes as `Nat`). -/
structure charRange where
  first : Nat
  last : Nat
  deriving DecidableEq, Repr

/-- Model of `charRange.choose`: `r.first + rune(rand.Int63n(int64(r.last - r.first)))`. -/
def charRange.choose (r : charRange) (s : RandS) : Nat × RandS :=
  let count : Int := (r.last : Int) - (r.first : Int)
  let (k, s₁) := randInt63n count s
  (r.first + k.toNat, s₁)

/-- The three built-in character ranges: ASCII, multi-byte encoded
characters, common CJK. -/
def unicodeRanges : List charRange :=
  [⟨0x20, 0x7e⟩, ⟨0xa0, 0x2af⟩, ⟨0x4e00, 0x9fff⟩]

/-- The loop body of `randString`: generate `n` runes, each by picking one of
the built-in ranges uniformly and choosing a rune from it. -/
def randStringRunes (n : Nat) (s : RandS) : List Nat × RandS :=
  match n with
  | 0 => ([], s)
  | m + 1 =>
    let (idx, s₁) := randIntn unicodeRanges.length s
    let (c, s₂) := (unicodeRanges.getD idx ⟨0x20, 0x7e⟩).choose s₁
    let (rest, s₃) := randStringRunes m s₂
    (c :: rest, s₃)

/-- Model of `randString`: a random string of `r.Intn(20)` runes. -/
def randString (s : RandS) : List Nat × RandS :=
  let (n, s₁) := randIntn 20 s
  randStringRunes n s₁

mutual
/-- Go type descriptors, as inspected through `reflect.Type`.  A single
representative is kept for each family of numeric kinds (`int`..`int64` all
share `greenrunInt`, `uint`..`uintptr` all share `greenrunUint`, both float
widths fill from the stream); `rawptr` is the unsafe-pointer kind.  `named`
models a defined (nominal) type over an underlying type: distinct ids are
distinct types for table lookup, while reflection kinds and element types see
through to the underlying type. -/
inductive GoType where
  | bool
  | int
  | uint
  | float
  | string
  | complex
  | rawptr
  | chan
  | func
  | iface
  | ptr (elem : GoType)
  | map (key val : GoType)
  | slice (elem : GoType)
  | array (len : Nat) (elem : GoType)
  | struct (fields : GoFields)
  | named (id : Nat) (under : GoType)
  deriving DecidableEq, Repr

/-- Struct fields: exported flag (drives `CanSet`) and field type. -/
inductive GoFields where
  | nil
  | cons (exported : Bool) (fieldType : GoType) (rest : GoFields)
  deriving DecidableEq, Repr
end

/-- Model of `reflect.Kind`. -/
inductive Kind where
  | bool
  | int
  | uint
  | float
  | string
  | complex
  | rawptr
  | chan
  | func
  | iface
  | ptr
  | map
  | slice
  | array
  | struct
  deriving DecidableEq, Repr

/-- Model of `Type.Kind()`: named types have the kind of their underlying type. -/
def kindOf : GoType → Kind
  | .bool => .bool
  | .int => .int
  | .uint => .uint
  | .float => .float
  | .string => .string
  | .complex => .complex
  | .rawptr => .rawptr
  | .chan => .chan
  | .func => .func
  | .iface => .iface
  | .ptr _ => .ptr
  | .map _ _ => .map
  | .slice _ => .slice
  | .array _ _ => .array
  | .struct _ => .struct
  | .named _ u => kindOf u

/-- Model of `Type.Elem()` (pointee, element, or map value type). -/
def elemType : GoType → GoType
  | .ptr t => t
  | .slice t => t
  | .array _ t => t
  | .map _ v => v
  | .named _ u => elemType u
  | _ => .struct .nil

/-- Model of `Type.Key()` for map types. -/
def keyType : GoType → GoType
  | .map k _ => k
  | .named _ u => keyType u
  | _ => .struct .nil

/-- The length of an array type. -/
def arrayLen : GoType → Nat
  | .array n _ => n
  | .named _ u => arrayLen u
  | _ => 0

/-- The field list of a struct type. -/
def structFields : GoType → GoFields
  | .struct fs => fs
  | .named _ u => structFields u
  | _ => .nil

mutual
/-- Go value trees as seen through `reflect.Value`.  Nil pointers, maps and
slices are distinguished from populated ones; `vChan`, `vFunc`, `vIface`,
`vComplex`, `vRawptr` are opaque placeholders for the kinds the generator
cannot handle. -/
inductive GoValue where
  | vBool (b : Bool)
  | vInt (n : Int)
  | vUint (n : Nat)
  | vFloat (q : Rat)
  | vString (runes : List Nat)
  | vComplex
  | vRawptr
  | vChan
  | vFunc
  | vIface
  | vNilPtr
  | vPtr (pointee : GoValue)
  | vNilMap
  | vMap (entries : GoEntries)
  | vNilSlice
  | vSlice (elems : GoValues)
  | vArray (elems : GoValues)
  | vStruct (fields : GoValues)
  deriving DecidableEq, Repr

/-- A list of values (slice/array elements or struct fields). -/
inductive GoValues where
  | nil
  | cons (v : GoValue) (rest : GoValues)
  deriving DecidableEq, Repr

/-- Map entries: an association list of key/value pairs. -/
inductive GoEntries where
  | nil
  | cons (k v : GoValue) (rest : GoEntries)
  deriving DecidableEq, Repr
end

/-- Convert a `GoValues` chain to a `List`. -/
def GoValues.toList : GoValues → List GoValue
  | .nil => []
  | .cons v rest => v :: rest.toList

/-- Build a `GoValues` chain from a `List`. -/
def GoValues.ofList : List GoValue → GoValues
  | [] => .nil
  | v :: rest => .cons v (GoValues.ofList rest)

/-- Model of `n` copies of a value. -/
def GoValues.replicate (n : Nat) (v : GoValue) : GoValues :=
  GoValues.ofList (List.replicate n v)

/-- Number of entries in a map value. -/
def GoEntries.length : GoEntries → Nat
  | .nil => 0
  | .cons _ _ rest => 1 + rest.length

/-- Model of `Value.SetMapIndex`: insert a key/value pair, overwriting the value of an
equal key if present (so duplicate random keys collapse). -/
def GoEntries.set : GoEntries → GoValue → GoValue → GoEntries
  | .nil, k, v => .cons k v .nil
  | .cons k₀ v₀ rest, k, v =>
    if k₀ = k then .cons k v rest else .cons k₀ v₀ (rest.set k v)

mutual
/-- Model of `reflect.Zero(t)` / `reflect.New(t).Elem()`: the zero value of a type. -/
def zeroValue : GoType → GoValue
  | .bool => .vBool false
  | .int => .vInt 0
  | .uint => .vUint 0
  | .float => .vFloat 0
  | .string => .vString []
  | .complex => .vComplex
  | .rawptr => .vRawptr
  | .chan => .vChan
  | .func => .vFunc
  | .iface => .vIface
  | .ptr _ => .vNilPtr
  | .map _ _ => .vNilMap
  | .slice _ => .vNilSlice
  | .array n t => .vArray (GoValues.replicate n (zeroValue t))
  | .struct fs => .vStruct (zeroFields fs)
  | .named _ u => zeroValue u

/-- Zero values of a struct field list. -/
def zeroFields : GoFields → GoValues
  | .nil => .nil
  | .cons _ t rest => .cons (zeroValue t) (zeroFields rest)
end

/-- Model of `Value.IsNil()` for pointer, map and slice values. -/
def isNilValue : GoValue → Bool
  | .vNilPtr => true
  | .vNilMap => true
  | .vNilSlice => true
  | _ => false

/-- Read back a mutation made through a pointer: the new content of a slot
whose address was passed to a custom function.  (The model has no heap, so a
pointer is identified with its pointee.) -/
def derefOr (res fallback : GoValue) : GoValue :=
  match res with
  | .vPtr x => x
  | _ => fallback

/-- A user-supplied generation function (a `Funcs` override, an `Interface`
self-generation method, or a built-in default): it receives the value passed
as its first argument plus the random stream, and produces the mutated value
and the consumed stream.  Re-entry through `Continue` is not modelled; the
functions are opaque transformations. -/
def CustomFn : Type := GoValue → RandS → GoValue × RandS

/-- Which types implement the `Interface` self-generation capability, and
with what behaviour (`none` = the type does not implement `Interface`).
This is determined by the Go program under test, not by the runner. -/
def SelfGenEnv : Type := GoType → Option CustomFn

/-- Model of `greenrunFuncMap`: a map from a type to the function handling it,
modelled as an association list keyed by type descriptors. -/
def greenrunFuncMap : Type := List (GoType × CustomFn)

/-- Map lookup in a `greenrunFuncMap`. -/
def lookupFn : greenrunFuncMap → GoType → Option CustomFn
  | [], _ => none
  | (k, g) :: rest, t => if k = t then some g else lookupFn rest t

/-- Map assignment `m[t] = g`: replace the binding for `t` if present,
otherwise add it. -/
def updateFn : greenrunFuncMap → GoType → CustomFn → greenrunFuncMap
  | [], t, g => [(t, g)]
  | (k, g₀) :: rest, t, g =>
    if k = t then (t, g) :: rest else (k, g₀) :: updateFn rest t g

/-- The `GreenRunner` configuration.  The `r *rand.Rand` field is not stored
here: the stream is threaded explicitly through every generation function. -/
structure GreenRunner where
  greenrunFuncs : greenrunFuncMap
  defaultGreenRunFuncs : greenrunFuncMap
  nilChance : Rat
  minElements : Int
  maxElements : Int
  maxDepth : Int

/-- Model of `time.Time`, the one type with a built-in default: a defined struct type
with unexported fields. -/
def timeTimeType : GoType :=
  .named 0 (.struct (.cons false .int (.cons false .int .nil)))

/-- Model of `greenrunTime`: `sec := c.Rand.Int63n(1000*365*24*60*60)`, then
`c.GreenRun(&nsec)` fills an `int64` through the standard integer generator
(two 32-bit draws; this models the nested call for a runner with no override
for `*int64`, which holds in every run below), and `*t = time.Unix(sec, nsec)`
is modelled as the pair of both fields. -/
def greenrunTime : CustomFn := fun _ s =>
  let (sec, s₁) := randInt63n (1000 * 365 * 24 * 60 * 60) s
  let (u, s₂) := randUint64 s₁
  (.vPtr (.vStruct (.cons (.vInt sec) (.cons (.vInt (toInt64 u)) .nil))), s₂)

/-- Model of `NewWithSeed`: the default configuration (the seed determines the stream,
which is threaded separately). -/
def defaultGreenRunner : GreenRunner where
  greenrunFuncs := []
  defaultGreenRunFuncs := [(GoType.ptr timeTimeType, greenrunTime)]
  nilChance := 1 / 5
  minElements := 1
  maxElements := 10
  maxDepth := 100

/-- Model of `NilChance(p)`: panics unless `0 ≤ p ≤ 1`. -/
def NilChance (f : GreenRunner) (p : Rat) : Except String GreenRunner :=
  if p < 0 ∨ p > 1 then .error "p should be between 0 and 1, inclusive."
  else .ok { f with nilChance := p }

/-- Model of `NumElements(atLeast, atMost)`: panics if `atLeast > atMost` or
`atLeast < 0`. -/
def NumElements (f : GreenRunner) (atLeast atMost : Int) : Except String GreenRunner :=
  if atLeast > atMost then .error "atLeast must be <= atMost"
  else if atLeast < 0 then .error "atLeast must be >= 0"
  else .ok { f with minElements := atLeast, maxElements := atMost }

/-- Model of `MaxDepth(d)`: no validation. -/
def MaxDepth (f : GreenRunner) (d : Int) : GreenRunner :=
  { f with maxDepth := d }

/-- Model of `genElementCount`: the fixed minimum when the bounds agree, otherwise
`minElements + Intn(maxElements - minElements + 1)`. -/
def genElementCount (f : GreenRunner) (s : RandS) : Int × RandS :=
  if f.minElements = f.maxElements then (f.minElements, s)
  else
    let (k, s₁) := randIntn (f.maxElements - f.minElements + 1).toNat s
    (f.minElements + (k : Int), s₁)

/-- Model of `genShouldFill`: `r.Float64() > f.nilChance`. -/
def genShouldFill (f : GreenRunner) (s : RandS) : Bool × RandS :=
  let (x, s₁) := randFloat64 s
  (decide (f.nilChance < x), s₁)

/-- The reflective shape of one argument passed to `Funcs`, together with its
behaviour once registered: whether the entry is a function at all, its number
of parameters and results, the type of its first parameter, and whether its
second parameter is `greenrun.Continue`. -/
structure FuncsEntry where
  isFunc : Bool
  numIn : Nat
  numOut : Nat
  in0 : GoType
  in1IsContinue : Bool
  impl : CustomFn

/-- An entry that `Funcs` accepts. -/
def validEntry (e : FuncsEntry) : Bool :=
  e.isFunc && e.numIn == 2 && e.numOut == 0 &&
    (kindOf e.in0 == Kind.ptr || kindOf e.in0 == Kind.map) && e.in1IsContinue

/-- Model of `Funcs`: validate each entry in order (wrong entries panic) and register
valid ones keyed by their first parameter type. -/
def Funcs (f : GreenRunner) : List FuncsEntry → Except String GreenRunner
  | [] => .ok f
  | e :: rest =>
    if e.isFunc = false then .error "Need only funcs!"
    else if ¬(e.numIn = 2 ∧ e.numOut = 0) then .error "Need 2 in and 0 out params!"
    else if ¬(kindOf e.in0 = Kind.ptr ∨ kindOf e.in0 = Kind.map) then
      .error "greenrunFunc must take pointer or map type"
    else if e.in1IsContinue = false then
      .error "greenrunFunc second parameter must be type greenrun.Continue"
    else Funcs { f with greenrunFuncs := updateFn f.greenrunFuncs e.in0 e.impl } rest

/-- Model of `fillFuncMap`: built-in per-kind primitive generators.  All integer kinds
fill via `greenrunInt` (`int64(randUint64)`), all unsigned kinds via
`greenrunUint`, floats draw from the stream, strings via `randString`;
complex and unsafe-pointer kinds panic `unimplemented`.  The functions
overwrite the slot entirely, so the current value is not an input. -/
def fillFuncMap (k : Kind) : Option (RandS → Except String (GoValue × RandS)) :=
  match k with
  | .bool => some (fun s => let (b, s₁) := randBool s; .ok (.vBool b, s₁))
  | .int => some (fun s => let (u, s₁) := randUint64 s; .ok (.vInt (toInt64 u), s₁))
  | .uint => some (fun s => let (u, s₁) := randUint64 s; .ok (.vUint u, s₁))
  | .float => some (fun s => let (x, s₁) := randFloat64 s; .ok (.vFloat x, s₁))
  | .string => some (fun s => let (cs, s₁) := randString s; .ok (.vString cs, s₁))
  | .complex => some (fun _ => .error "unimplemented")
  | .rawptr => some (fun _ => .error "unimplemented")
  | _ => none

/-- The allocation step of `tryCustom` (lines 311-328): a nil pointer target
gets a fresh pointee (`reflect.New`), a nil map target gets an empty map
(`reflect.MakeMap`), anything else is passed through. -/
def allocIfNil (t : GoType) (v : GoValue) : GoValue :=
  match kindOf t with
  | .ptr => if isNilValue v then .vPtr (zeroValue (elemType t)) else v
  | .map => if isNilValue v then .vMap .nil else v
  | _ => v

/-- The tail of `tryCustom` once a handler `doCustom` has been found: only
pointer and map targets are invoked (anything else returns `false`); a nil
target that cannot be set returns `false`; otherwise the target is allocated
if nil and `doCustom` is called on it. -/
def tryCustomCall (doCustom : CustomFn) (t : GoType) (v : GoValue) (canSet : Bool)
    (s : RandS) : Option (GoValue × RandS) :=
  match kindOf t with
  | .ptr =>
    if isNilValue v ∧ canSet = false then none
    else some (doCustom (allocIfNil t v) s)
  | .map =>
    if isNilValue v ∧ canSet = false then none
    else some (doCustom (allocIfNil t v) s)
  | _ => none

/-- Model of `tryCustom`: first a registered override for the exact type, else the
`Interface` self-generation capability (invoked directly on the value, with
no allocation and no kind restriction), else a built-in default for the exact
type; `none` means no handler matched.  (Values reaching `tryCustom` always
satisfy `CanInterface`, since they are either settable or the address of a
settable value.) -/
def tryCustom (f : GreenRunner) (sg : SelfGenEnv) (t : GoType) (v : GoValue)
    (canSet : Bool) (s : RandS) : Option (GoValue × RandS) :=
  match lookupFn f.greenrunFuncs t with
  | some doCustom => tryCustomCall doCustom t v canSet s
  | none =>
    match sg t with
    | some g => some (g v s)
    | none =>
      match lookupFn f.defaultGreenRunFuncs t with
      | some doCustom => tryCustomCall doCustom t v canSet s
      | none => none

/-- Model of `flagNoCustomGreenRun`: suppress custom-function lookup for one step
(does not apply recursively). -/
def flagNoCustomGreenRun : Nat := 1

/-- The custom phase of `doGreenRun` (lines 220-228): when the flag is not
set, first try handlers for the address of the slot (`v.Addr()`, which is a
non-nil, non-settable pointer; a mutation made through it is read back into
the slot), then handlers for the slot itself. -/
def customPhase (f : GreenRunner) (sg : SelfGenEnv) (flags : Nat) (t : GoType)
    (v : GoValue) (s : RandS) : Option (GoValue × RandS) :=
  if flags &&& flagNoCustomGreenRun == 0 then
    match tryCustom f sg (.ptr t) (.vPtr v) false s with
    | some (res, s₁) => some (derefOr res v, s₁)
    | none =>
      match tryCustom f sg t v true s with
      | some (res, s₁) => some (res, s₁)
      | none => none
  else none

/-- The field values of a struct value. -/
def structValues : GoValue → GoValues
  | .vStruct vs => vs
  | _ => .nil

/-- The recursion items for a struct slot: each field paired with its type
and its `CanSet` status (a field of a settable struct is settable iff it is
exported).  A too-short value chain is padded with zero values; well-typed
values never need the padding. -/
def structItems : GoFields → GoValues → List (GoType × GoValue × Bool)
  | .nil, _ => []
  | .cons ex t rest, .cons h tl => (t, h, ex) :: structItems rest tl
  | .cons ex t rest, .nil => (t, zeroValue t, ex) :: structItems rest .nil

/-- The recursion items for an array slot: its current elements, all
settable.  A non-array value falls back to zero elements; well-typed values
never need the fallback. -/
def arrayItems (n : Nat) (t : GoType) (v : GoValue) : List (GoType × GoValue × Bool) :=
  (match v with
   | .vArray xs => xs.toList
   | _ => List.replicate n (zeroValue t)).map (fun x => (t, x, true))

mutual
/-- Model of `doGreenRun`: one recursive generation step on a slot of type `t` holding
`v`.  In order: the depth guard (a strict no-op at or beyond `maxDepth`; the
counter is incremented for the duration of the step, so every child runs at
`cur + 1` and siblings see the same remaining budget), the writability guard,
the custom phase (suppressed by `flagNoCustomGreenRun`, which is never passed
on), the per-kind primitive generators, and the structural switch.  Panics
are `Except.error`. -/
def doGreenRun (f : GreenRunner) (sg : SelfGenEnv) (cur : Nat) (flags : Nat)
    (t : GoType) (v : GoValue) (canSet : Bool) (s : RandS) :
    Except String (GoValue × RandS) :=
  if hd : f.maxDepth ≤ (cur : Int) then .ok (v, s)
  else if canSet = false then .ok (v, s)
  else
    match customPhase f sg flags t v s with
    | some (res, s₁) => .ok (res, s₁)
    | none =>
      match fillFuncMap (kindOf t) with
      | some fill => fill s
      | none =>
        match kindOf t with
        | .map =>
          let (should, s₁) := genShouldFill f s
          if should then
            let (n, s₂) := genElementCount f s₁
            match greenRunMapEntries f sg (cur + 1) (keyType t) (elemType t) n.toNat .nil s₂ with
            | .ok (entries, s₃) => .ok (.vMap entries, s₃)
            | .error e => .error e
          else .ok (.vNilMap, s₁)
        | .ptr =>
          let (should, s₁) := genShouldFill f s
          if should then
            match doGreenRun f sg (cur + 1) 0 (elemType t) (zeroValue (elemType t)) true s₁ with
            | .ok (p, s₂) => .ok (.vPtr p, s₂)
            | .error e => .error e
          else .ok (.vNilPtr, s₁)
        | .slice =>
          let (should, s₁) := genShouldFill f s
          if should then
            let (n, s₂) := genElementCount f s₁
            match greenRunItems f sg (cur + 1)
                (List.replicate n.toNat (elemType t, zeroValue (elemType t), true)) s₂ with
            | .ok (xs, s₃) => .ok (.vSlice (GoValues.ofList xs), s₃)
            | .error e => .error e
          else .ok (.vNilSlice, s₁)
        | .array =>
          let (should, s₁) := genShouldFill f s
          if should then
            match greenRunItems f sg (cur + 1) (arrayItems (arrayLen t) (elemType t) v) s₁ with
            | .ok (xs, s₃) => .ok (.vArray (GoValues.ofList xs), s₃)
            | .error e => .error e
          else .ok (zeroValue t, s₁)
        | .struct =>
          match greenRunItems f sg (cur + 1) (structItems (structFields t) (structValues v)) s with
          | .ok (xs, s₃) => .ok (.vStruct (GoValues.ofList xs), s₃)
          | .error e => .error e
        | _ => .error "Can not handle value"
termination_by ((f.maxDepth - (cur : Int)).toNat, 0)
decreasing_by
  all_goals exact Prod.Lex.left _ _ (by omega)

/-- Sequential generation of a list of sub-slots (struct fields, slice or
array elements), threading the stream and aborting on the first error.  Every
item runs at the same depth `cur` with custom lookup enabled (`flags = 0`). -/
def greenRunItems (f : GreenRunner) (sg : SelfGenEnv) (cur : Nat)
    (items : List (GoType × GoValue × Bool)) (s : RandS) :
    Except String (List GoValue × RandS) :=
  match items with
  | [] => .ok ([], s)
  | (t, v, cs) :: rest =>
    match doGreenRun f sg cur 0 t v cs s with
    | .error e => .error e
    | .ok (v₁, s₁) =>
      match greenRunItems f sg cur rest s₁ with
      | .error e => .error e
      | .ok (vs, s₂) => .ok (v₁ :: vs, s₂)
termination_by ((f.maxDepth - (cur : Int)).toNat, items.length + 1)
decreasing_by
  all_goals exact Prod.Lex.right _ (by simp only [List.length_cons]; omega)

/-- The map-population loop: `n` times, generate a key from a fresh zero
value, then a value, then `SetMapIndex` them into the accumulated map. -/
def greenRunMapEntries (f : GreenRunner) (sg : SelfGenEnv) (cur : Nat)
    (kt vt : GoType) (n : Nat) (acc : GoEntries) (s : RandS) :
    Except String (GoEntries × RandS) :=
  match n with
  | 0 => .ok (acc, s)
  | m + 1 =>
    match doGreenRun f sg cur 0 kt (zeroValue kt) true s with
    | .error e => .error e
    | .ok (k, s₁) =>
      match doGreenRun f sg cur 0 vt (zeroValue vt) true s₁ with
      | .error e => .error e
      | .ok (vv, s₂) => greenRunMapEntries f sg cur kt vt m (acc.set k vv) s₂
termination_by ((f.maxDepth - (cur : Int)).toNat, 2 * n + 1)
decreasing_by
  all_goals exact Prod.Lex.right _ (by omega)
end

/-- Model of `GreenRun(obj)`: `obj` must be a pointer; its pointee is filled starting
at depth 0 with custom lookup enabled.  The pointee of a nil `obj` is not
settable, so nothing happens.  The returned value is the mutated pointee. -/
def GreenRun (f : GreenRunner) (sg : SelfGenEnv) (t : GoType) (obj : GoValue)
    (s : RandS) : Except String (GoValue × RandS) :=
  if kindOf t ≠ Kind.ptr then .error "needed ptr!"
  else doGreenRun f sg 0 0 (elemType t) (derefOr obj (zeroValue (elemType t)))
    (!isNilValue obj) s

/-- Model of `GreenRunNoCustom(obj)`: like `GreenRun`, but the outermost step carries
`flagNoCustomGreenRun`. -/
def GreenRunNoCustom (f : GreenRunner) (sg : SelfGenEnv) (t : GoType) (obj : GoValue)
    (s : RandS) : Except String (GoValue × RandS) :=
  if kindOf t ≠ Kind.ptr then .error "needed ptr!"
  else doGreenRun f sg 0 flagNoCustomGreenRun (elemType t)
    (derefOr obj (zeroValue (elemType t))) (!isNilValue obj) s

/-- Model of `Continue.GreenRun(obj)`: re-enter the recursion at the current depth of
the carried context. -/
def ContinueGreenRun (f : GreenRunner) (sg : SelfGenEnv) (cur : Nat) (t : GoType)
    (obj : GoValue) (s : RandS) : Except String (GoValue × RandS) :=
  if kindOf t ≠ Kind.ptr then .error "needed ptr!"
  else doGreenRun f sg cur 0 (elemType t) (derefOr obj (zeroValue (elemType t)))
    (!isNilValue obj) s

/-- Model of `Continue.GreenRunNoCustom(obj)`: the suppressed variant of
`Continue.GreenRun`. -/
def ContinueGreenRunNoCustom (f : GreenRunner) (sg : SelfGenEnv) (cur : Nat)
    (t : GoType) (obj : GoValue) (s : RandS) : Except String (GoValue × RandS) :=
  if kindOf t ≠ Kind.ptr then .error "needed ptr!"
  else doGreenRun f sg cur flagNoCustomGreenRun (elemType t)
    (derefOr obj (zeroValue (elemType t))) (!isNilValue obj) s

/-! ## Shared fixtures and helper lemmas -/

/-- Project a generation result to its value component (the mutated target),
discarding the stream. -/
def runValue (r : Except String (GoValue × RandS)) : Except String GoValue :=
  r.map Prod.fst

/-- A program in which no type implements the `Interface` capability. -/
def sgNone : SelfGenEnv := fun _ => none

/-- A test type with a pointer field, a map field and a slice field:
`struct { P *int; M map[int]int; S []int }`. -/
def TTest : GoType :=
  .struct (.cons true (.ptr .int)
    (.cons true (.map .int .int)
      (.cons true (.slice .int) .nil)))

/-- The default runner after `NilChance(0)`. -/
def fNil0 : GreenRunner := { defaultGreenRunner with nilChance := 0 }

/-- The runner `fNil0` after `NumElements(1, 1)`. -/
def fOne : GreenRunner := { fNil0 with minElements := 1, maxElements := 1 }

theorem lookupFn_updateFn_self (m : greenrunFuncMap) (t : GoType) (g : CustomFn) :
    lookupFn (updateFn m t g) t = some g := by
  induction m with
  | nil => simp [updateFn, lookupFn]
  | cons hd tl ih =>
    obtain ⟨k, g₀⟩ := hd
    by_cases h : k = t
    · simp [updateFn, h, lookupFn]
    · simp [updateFn, h, lookupFn, ih]

theorem doGreenRun_depth_stop (f : GreenRunner) (sg : SelfGenEnv) (cur : Nat)
    (flags : Nat) (t : GoType) (v : GoValue) (canSet : Bool) (s : RandS)
    (h : f.maxDepth ≤ (cur : Int)) :
    doGreenRun f sg cur flags t v canSet s = .ok (v, s) := by
  rw [doGreenRun]
  simp [h]

theorem doGreenRun_custom_some (f : GreenRunner) (sg : SelfGenEnv) (cur : Nat)
    (flags : Nat) (t : GoType) (v : GoValue) (s : RandS) (res : GoValue)
    (s₁ : RandS) (hd : ¬ f.maxDepth ≤ (cur : Int))
    (hc : customPhase f sg flags t v s = some (res, s₁)) :
    doGreenRun f sg cur flags t v true s = .ok (res, s₁) := by
  rw [doGreenRun]
  simp [hd, hc]

/-- Helper: an override registered for the reference-to-slot type `*t` always
fires first, consuming no randomness before the custom function runs. -/
theorem doGreenRun_ptr_override (f : GreenRunner) (sg : SelfGenEnv) (cur : Nat)
    (t : GoType) (v : GoValue) (s : RandS) (g : CustomFn)
    (hcur : (cur : Int) < f.maxDepth)
    (hg : lookupFn f.greenrunFuncs (.ptr t) = some g) :
    doGreenRun f sg cur 0 t v true s =
      .ok (derefOr (g (.vPtr v) s).1 v, (g (.vPtr v) s).2) := by
  have hc : customPhase f sg 0 t v s = some (derefOr (g (.vPtr v) s).1 v, (g (.vPtr v) s).2) := by
    simp [customPhase, flagNoCustomGreenRun, tryCustom, hg, tryCustomCall, kindOf,
      isNilValue, allocIfNil]
  exact doGreenRun_custom_some f sg cur 0 t v s _ _ (by omega) hc

/-! ## C8: setter validation -/

/-- C8: `SetNilProbability(p)` fails iff `p < 0` or `p > 1`, and
`SetElementCountRange(min, max)` fails iff `min > max` or `min < 0`; a
successful call updates exactly the corresponding configuration fields. -/
theorem nilChance_numElements_validation :
    (∀ f p, (∃ e, NilChance f p = .error e) ↔ (p < 0 ∨ p > 1)) ∧
    (∀ f p g, NilChance f p = .ok g → g = { f with nilChance := p }) ∧
    (∀ f a b, (∃ e, NumElements f a b = .error e) ↔ (a > b ∨ a < 0)) ∧
    (∀ f a b g, NumElements f a b = .ok g →
      g = { f with minElements := a, maxElements := b }) := by
  refine ⟨?_, ?_, ?_, ?_⟩
  · intro f p
    unfold NilChance
    split
    · next h => simp [h]
    · next h => simp [h]
  · intro f p g h
    unfold NilChance at h
    split at h
    · exact absurd h (by simp)
    · simpa using h.symm
  · intro f a b
    unfold NumElements
    split
    · next h => simp [h]
    · next h =>
      split
      · next h₂ => simp [h, h₂]
      · next h₂ => simp [h, h₂]
  · intro f a b g h
    unfold NumElements at h
    split at h
    · exact absurd h (by simp)
    · split at h
      · exact absurd h (by simp)
      · simpa using h.symm

/-- Witness for C8: `NilChance 2` fails; `NilChance 1` succeeds and only
changes `nilChance`; `NumElements (-1) 3` fails. -/
theorem nilChance_numElements_validation_witness :
    (∃ e, NilChance defaultGreenRunner 2 = .error e) ∧
    ({ defaultGreenRunner with nilChance := 1 } =
      { defaultGreenRunner with nilChance := 1 }) ∧
    (∃ e, NumElements defaultGreenRunner (-1) 3 = .error e) := by
  refine ⟨nilChance_numElements_validation.1 defaultGreenRunner 2 |>.mpr (by norm_num),
    nilChance_numElements_validation.2.1 defaultGreenRunner 1
      { defaultGreenRunner with nilChance := 1 } (by rfl),
    nilChance_numElements_validation.2.2.1 defaultGreenRunner (-1) 3 |>.mpr (by norm_num)⟩

/-! ## C9: element count range -/

/-- C9: with `minElements ≤ maxElements`, the generated element count always
lies in `[minElements, maxElements]`, every value in that range is reached by
some stream, and with `minElements = maxElements` the count is that fixed
value (and no randomness is consumed). -/
theorem genElementCount_range :
    (∀ f s, f.minElements ≤ f.maxElements →
      f.minElements ≤ (genElementCount f s).1 ∧
        (genElementCount f s).1 ≤ f.maxElements) ∧
    (∀ f c, f.minElements ≤ f.maxElements → f.minElements ≤ c →
      c ≤ f.maxElements → ∃ s, (genElementCount f s).1 = c) ∧
    (∀ f s, f.minElements = f.maxElements →
      genElementCount f s = (f.minElements, s)) := by
  refine ⟨?_, ?_, ?_⟩
  · intro f s hle
    by_cases h : f.minElements = f.maxElements
    · simp [genElementCount, h]
    · have hpos : 0 < (f.maxElements - f.minElements + 1).toNat := by omega
      have hk : rhead s % (f.maxElements - f.minElements + 1).toNat <
          (f.maxElements - f.minElements + 1).toNat := Nat.mod_lt _ hpos
      simp only [genElementCount, h, if_false, randIntn]
      constructor
      · omega
      · omega
  · intro f c hle hc₁ hc₂
    by_cases h : f.minElements = f.maxElements
    · exact ⟨fun _ => 0, by simp [genElementCount, h]; omega⟩
    · refine ⟨fun _ => (c - f.minElements).toNat, ?_⟩
      have hlt : (c - f.minElements).toNat < (f.maxElements - f.minElements + 1).toNat := by
        omega
      simp only [genElementCount, h, if_false, randIntn, rhead]
      rw [Nat.mod_eq_of_lt hlt]
      omega
  · intro f s h
    simp [genElementCount, h]

/-- Witness for C9: with bounds `[2, 5]`, the count at an all-zero stream is
in range, `4` is reachable, and with bounds `[3, 3]` the count is `3`. -/
theorem genElementCount_range_witness :
    (2 ≤ (genElementCount { defaultGreenRunner with minElements := 2, maxElements := 5 } (fun _ => 0)).1 ∧
      (genElementCount { defaultGreenRunner with minElements := 2, maxElements := 5 } (fun _ => 0)).1 ≤ 5) ∧
    (∃ s, (genElementCount { defaultGreenRunner with minElements := 2, maxElements := 5 } s).1 = 4) ∧
    (genElementCount { defaultGreenRunner with minElements := 3, maxElements := 3 } (fun _ => 7) =
      (3, fun _ => 7)) := by
  refine ⟨genElementCount_range.1 _ _ (by norm_num),
    genElementCount_range.2.1 _ 4 (by norm_num) (by norm_num) (by norm_num),
    genElementCount_range.2.2 _ _ (by norm_num)⟩

/-! ## C10: generated runes and string length -/

theorem randStringRunes_length (n : Nat) (s : RandS) :
    (randStringRunes n s).1.length = n := by
  induction n generalizing s with
  | zero => simp [randStringRunes]
  | succ m ih => simp [randStringRunes, ih]

theorem charRange_choose_mem (rg : charRange) (h : rg.first < rg.last) (s : RandS) :
    rg.first ≤ (rg.choose s).1 ∧ (rg.choose s).1 < rg.last := by
  simp only [charRange.choose, randInt63n, Int.toNat_natCast]
  have hpos : 0 < ((rg.last : Int) - (rg.first : Int)).toNat := by omega
  have := Nat.mod_lt (rhead s) hpos
  omega

theorem randStringRunes_mem (n : Nat) (s : RandS) (c : Nat)
    (h : c ∈ (randStringRunes n s).1) :
    (0x20 ≤ c ∧ c < 0x7e) ∨ (0xa0 ≤ c ∧ c < 0x2af) ∨
      (0x4e00 ≤ c ∧ c < 0x9fff) := by
  induction n generalizing s with
  | zero => simp [randStringRunes] at h
  | succ m ih =>
    simp only [randStringRunes, randIntn] at h
    rcases List.mem_cons.mp h with hc | hc
    · subst hc
      have h3 : rhead s % unicodeRanges.length = 0 ∨
          rhead s % unicodeRanges.length = 1 ∨
          rhead s % unicodeRanges.length = 2 := by
        have h4 : rhead s % unicodeRanges.length < 3 :=
          Nat.mod_lt _ (by simp [unicodeRanges])
        omega
      rcases h3 with h0 | h0 | h0
      · rw [h0, show unicodeRanges.getD 0 ⟨0x20, 0x7e⟩ = ⟨0x20, 0x7e⟩ from rfl]
        exact Or.inl (charRange_choose_mem ⟨0x20, 0x7e⟩ (by norm_num) (rtail s))
      · rw [h0, show unicodeRanges.getD 1 ⟨0x20, 0x7e⟩ = ⟨0xa0, 0x2af⟩ from rfl]
        exact Or.inr (Or.inl (charRange_choose_mem ⟨0xa0, 0x2af⟩ (by norm_num) (rtail s)))
      · rw [h0, show unicodeRanges.getD 2 ⟨0x20, 0x7e⟩ = ⟨0x4e00, 0x9fff⟩ from rfl]
        exact Or.inr (Or.inr (charRange_choose_mem ⟨0x4e00, 0x9fff⟩ (by norm_num) (rtail s)))
    · exact ih _ hc

/-- C10: every rune of a generated string lies in the half-open interval
`[first, last)` of one of the three built-in character ranges — in
particular the upper endpoints `0x7e`, `0x2af` and `0x9fff` are never
produced — and the string length is at most 19. -/
theorem randString_runes_in_ranges (s : RandS) :
    (randString s).1.length ≤ 19 ∧
    ∀ c ∈ (randString s).1,
      (∃ rg ∈ unicodeRanges, rg.first ≤ c ∧ c < rg.last) ∧
        c ≠ 0x7e ∧ c ≠ 0x2af ∧ c ≠ 0x9fff := by
  constructor
  · have : rhead s % 20 < 20 := Nat.mod_lt _ (by norm_num)
    simp only [randString, randIntn, randStringRunes_length]
    omega
  · intro c hc
    have hm := randStringRunes_mem _ _ _ (by simpa [randString, randIntn] using hc)
    rcases hm with ⟨h₁, h₂⟩ | ⟨h₁, h₂⟩ | ⟨h₁, h₂⟩
    · exact ⟨⟨⟨0x20, 0x7e⟩, by simp [unicodeRanges], h₁, h₂⟩, by omega, by omega, by omega⟩
    · exact ⟨⟨⟨0xa0, 0x2af⟩, by simp [unicodeRanges], h₁, h₂⟩, by omega, by omega, by omega⟩
    · exact ⟨⟨⟨0x4e00, 0x9fff⟩, by simp [unicodeRanges], h₁, h₂⟩, by omega, by omega, by omega⟩

/-- Witness for C10: on the all-ones stream the generated string is the
single rune `0xa1`, which the theorem places in a built-in range. -/
theorem randString_runes_in_ranges_witness :
    ((randString (fun _ => 1)).1.length ≤ 19 ∧
      (∃ rg ∈ unicodeRanges, rg.first ≤ 0xa1 ∧ 0xa1 < rg.last) ∧
        (0xa1 : Nat) ≠ 0x7e ∧ (0xa1 : Nat) ≠ 0x2af ∧ (0xa1 : Nat) ≠ 0x9fff) := by
  have h := randString_runes_in_ranges (fun _ => 1)
  exact ⟨h.1, h.2 0xa1 (by decide)⟩

/-! ## C6: Funcs registration -/

theorem validEntry_false_iff (en : FuncsEntry) :
    validEntry en = false ↔
      (en.isFunc = false ∨ ¬(en.numIn = 2 ∧ en.numOut = 0) ∨
        ¬(kindOf en.in0 = Kind.ptr ∨ kindOf en.in0 = Kind.map) ∨
        en.in1IsContinue = false) := by
  rw [show (validEntry en = false) ↔ ¬(validEntry en = true) by simp]
  cases hf : en.isFunc <;> cases hc : en.in1IsContinue <;>
    simp [validEntry, hf, hc, Bool.and_eq_true, beq_iff_eq, Bool.or_eq_true] <;>
    tauto

theorem Funcs_error_iff (es : List FuncsEntry) : ∀ f : GreenRunner,
    (∃ e, Funcs f es = .error e) ↔ ∃ en ∈ es, validEntry en = false := by
  induction es with
  | nil => intro f; simp [Funcs]
  | cons e es ih =>
    intro f
    by_cases h1 : e.isFunc = false
    · simp only [Funcs, if_pos h1]
      exact iff_of_true ⟨_, rfl⟩
        ⟨e, List.mem_cons_self e es, (validEntry_false_iff e).mpr (Or.inl h1)⟩
    · simp only [Funcs, if_neg h1]
      by_cases h2 : e.numIn = 2 ∧ e.numOut = 0
      · simp only [if_neg (not_not_intro h2)]
        by_cases h3 : kindOf e.in0 = Kind.ptr ∨ kindOf e.in0 = Kind.map
        · simp only [if_neg (not_not_intro h3)]
          by_cases h4 : e.in1IsContinue = false
          · simp only [if_pos h4]
            exact iff_of_true ⟨_, rfl⟩
              ⟨e, List.mem_cons_self e es,
                (validEntry_false_iff e).mpr (Or.inr (Or.inr (Or.inr h4)))⟩
          · simp only [if_neg h4]
            rw [ih]
            have hve : ¬(validEntry e = false) := by
              rw [validEntry_false_iff]
              push_neg
              exact ⟨h1, h2, h3, h4⟩
            constructor
            · rintro ⟨en, hm, hb⟩
              exact ⟨en, List.mem_cons_of_mem _ hm, hb⟩
            · rintro ⟨en, hm, hb⟩
              rcases List.mem_cons.mp hm with rfl | hm₂
              · exact absurd hb hve
              · exact ⟨en, hm₂, hb⟩
        · simp only [if_pos h3]
          exact iff_of_true ⟨_, rfl⟩
            ⟨e, List.mem_cons_self e es,
              (validEntry_false_iff e).mpr (Or.inr (Or.inr (Or.inl h3)))⟩
      · simp only [if_pos h2]
        exact iff_of_true ⟨_, rfl⟩
          ⟨e, List.mem_cons_self e es,
            (validEntry_false_iff e).mpr (Or.inr (Or.inl h2))⟩

theorem Funcs_last_wins (es : List FuncsEntry) :
    ∀ (f g : GreenRunner) (en : FuncsEntry), Funcs f (es ++ [en]) = .ok g →
      lookupFn g.greenrunFuncs en.in0 = some en.impl := by
  induction es with
  | nil =>
    intro f g en h
    simp only [List.nil_append, Funcs] at h
    split at h
    · simp at h
    · split at h
      · simp at h
      · split at h
        · simp at h
        · split at h
          · simp at h
          · obtain rfl := Except.ok.inj h
            exact lookupFn_updateFn_self _ _ _
  | cons e es ih =>
    intro f g en h
    simp only [List.cons_append, Funcs] at h
    split at h
    · simp at h
    · split at h
      · simp at h
      · split at h
        · simp at h
        · split at h
          · simp at h
          · exact ih _ _ _ h

/-- C6: registration via `Funcs` fails iff some supplied entry is not a
function, or lacks exactly two parameters and zero results, or has a first
parameter whose kind is neither pointer nor map, or a second parameter that
is not `greenrun.Continue`; and whenever registration succeeds, the table
maps the last entry's first-parameter type to that entry's function (so a
later registration for the same type replaces an earlier one). -/
theorem Funcs_validation :
    (∀ (f : GreenRunner) (es : List FuncsEntry),
      (∃ e, Funcs f es = .error e) ↔
        ∃ en ∈ es, (en.isFunc = false ∨ ¬(en.numIn = 2 ∧ en.numOut = 0) ∨
          ¬(kindOf en.in0 = Kind.ptr ∨ kindOf en.in0 = Kind.map) ∨
          en.in1IsContinue = false)) ∧
    (∀ (f g : GreenRunner) (es : List FuncsEntry) (en : FuncsEntry),
      Funcs f (es ++ [en]) = .ok g →
        lookupFn g.greenrunFuncs en.in0 = some en.impl) := by
  constructor
  · intro f es
    rw [Funcs_error_iff]
    constructor
    · rintro ⟨en, hm, hb⟩
      exact ⟨en, hm, (validEntry_false_iff en).mp hb⟩
    · rintro ⟨en, hm, hb⟩
      exact ⟨en, hm, (validEntry_false_iff en).mpr hb⟩
  · intro f g es en h
    exact Funcs_last_wins es f g en h

/-- An always-valid sample override entry for type `*int` writing `9`. -/
def entryPtrInt : FuncsEntry where
  isFunc := true
  numIn := 2
  numOut := 0
  in0 := .ptr .int
  in1IsContinue := true
  impl := fun _ s => (.vPtr (.vInt 9), s)

/-- A sample entry that is not a function. -/
def entryNotFunc : FuncsEntry where
  isFunc := false
  numIn := 2
  numOut := 0
  in0 := .ptr .int
  in1IsContinue := true
  impl := fun v s => (v, s)

/-- Witness for C6: registering a non-function fails; registering two entries
for `*int` succeeds and the table holds the second one. -/
theorem Funcs_validation_witness :
    (∃ e, Funcs defaultGreenRunner [entryNotFunc] = .error e) ∧
    lookupFn ({ defaultGreenRunner with
        greenrunFuncs := [(GoType.ptr .int, entryPtrInt.impl)] } : GreenRunner).greenrunFuncs
      entryPtrInt.in0 = some entryPtrInt.impl := by
  constructor
  · exact (Funcs_validation.1 defaultGreenRunner [entryNotFunc]).mpr
      ⟨entryNotFunc, by simp, Or.inl rfl⟩
  · exact Funcs_validation.2 defaultGreenRunner _ [entryPtrInt] entryPtrInt rfl

/-! ## C4: allocation before custom invocation -/

/-- C4: whenever a registered override or a built-in default is invoked on a
pointer or map slot that is currently nil (a nil non-settable slot is never
invoked), the slot is allocated first — independently of the configured nil
probability and of the stream, which is handed to the function untouched —
so the invoked function always receives a non-nil target. -/
theorem tryCustom_allocates (f : GreenRunner) (sg : SelfGenEnv) (t : GoType)
    (v : GoValue) (canSet : Bool) (s : RandS) (g : CustomFn)
    (hk : kindOf t = Kind.ptr ∨ kindOf t = Kind.map)
    (hset : isNilValue v = true → canSet = true)
    (hg : lookupFn f.greenrunFuncs t = some g ∨
      (lookupFn f.greenrunFuncs t = none ∧ sg t = none ∧
        lookupFn f.defaultGreenRunFuncs t = some g)) :
    tryCustom f sg t v canSet s = some (g (allocIfNil t v) s) ∧
      isNilValue (allocIfNil t v) = false := by
  have hcall : tryCustomCall g t v canSet s = some (g (allocIfNil t v) s) := by
    rcases hk with hk | hk <;>
    · by_cases hnil : isNilValue v = true
      · simp [tryCustomCall, hk, hnil, hset hnil]
      · simp [tryCustomCall, hk, hnil]
  have halloc : isNilValue (allocIfNil t v) = false := by
    by_cases hnil : isNilValue v = true
    · rcases hk with hk | hk
      · rw [show allocIfNil t v = .vPtr (zeroValue (elemType t)) by
          simp [allocIfNil, hk, hnil]]
        rfl
      · rw [show allocIfNil t v = .vMap .nil by simp [allocIfNil, hk, hnil]]
        rfl
    · simp only [Bool.not_eq_true] at hnil
      rcases hk with hk | hk <;>
        rw [show allocIfNil t v = v by simp [allocIfNil, hk, hnil]] <;>
        exact hnil
  refine ⟨?_, halloc⟩
  rcases hg with hg | ⟨hg₁, hg₂, hg₃⟩
  · simp [tryCustom, hg, hcall]
  · simp [tryCustom, hg₁, hg₂, hg₃, hcall]

/-- Witness for C4: the default table's `*time.Time` function is invoked on a
freshly allocated pointee when the slot is a nil pointer. -/
theorem tryCustom_allocates_witness :
    tryCustom defaultGreenRunner sgNone (.ptr timeTimeType) .vNilPtr true (fun _ => 0) =
      some (greenrunTime (allocIfNil (.ptr timeTimeType) .vNilPtr) (fun _ => 0)) ∧
    isNilValue (allocIfNil (.ptr timeTimeType) .vNilPtr) = false :=
  tryCustom_allocates defaultGreenRunner sgNone (.ptr timeTimeType) .vNilPtr true
    (fun _ => 0) greenrunTime (Or.inl rfl) (fun _ => rfl) (Or.inr ⟨rfl, rfl, rfl⟩)

/-! ## C3: depth ceiling -/

theorem greenRunItems_append (f : GreenRunner) (sg : SelfGenEnv) (cur : Nat)
    (items₁ items₂ : List (GoType × GoValue × Bool)) (s : RandS) :
    greenRunItems f sg cur (items₁ ++ items₂) s =
      (greenRunItems f sg cur items₁ s).bind fun r =>
        (greenRunItems f sg cur items₂ r.2).map fun q => (r.1 ++ q.1, q.2) := by
  induction items₁ generalizing s with
  | nil =>
    cases h : greenRunItems f sg cur items₂ s with
    | error e => simp [greenRunItems, Except.bind, Except.map, h]
    | ok r => simp [greenRunItems, Except.bind, Except.map, h]
  | cons it rest ih =>
    obtain ⟨t, v, cs⟩ := it
    rw [List.cons_append]
    cases hgen : doGreenRun f sg cur 0 t v cs s with
    | error e =>
      simp only [greenRunItems, hgen]
      simp [Except.bind]
    | ok r =>
      obtain ⟨v₁, s₁⟩ := r
      simp only [greenRunItems, hgen]
      rw [ih]
      cases h₁ : greenRunItems f sg cur rest s₁ with
      | error e => simp [Except.bind]
      | ok r₁ =>
        obtain ⟨vs, s₂⟩ := r₁
        cases h₂ : greenRunItems f sg cur items₂ s₂ with
        | error e => simp [h₂, Except.bind, Except.map]
        | ok r₂ => simp [h₂, Except.bind, Except.map]

/-- C3: a generation step at `curDepth ≥ maxDepth` is a strict no-op (value
and stream untouched, no error); after `SetMaxDepth(d)` with `d ≤ 0` — so
both `0` and any negative depth — a well-formed `Fill` returns the target's
pointee unmodified without a panic; and sibling sub-slots are generated
sequentially at one and the same depth, so no sibling inherits another's
depth consumption. -/
theorem maxDepth_noop :
    (∀ (f : GreenRunner) (sg : SelfGenEnv) (cur flags : Nat) (t : GoType)
      (v : GoValue) (canSet : Bool) (s : RandS), f.maxDepth ≤ (cur : Int) →
      doGreenRun f sg cur flags t v canSet s = .ok (v, s)) ∧
    (∀ (f : GreenRunner) (sg : SelfGenEnv) (t : GoType) (obj : GoValue)
      (s : RandS) (d : Int), d ≤ 0 → kindOf t = Kind.ptr →
      GreenRun (MaxDepth f d) sg t obj s =
        .ok (derefOr obj (zeroValue (elemType t)), s)) ∧
    (∀ (f : GreenRunner) (sg : SelfGenEnv) (cur : Nat)
      (items₁ items₂ : List (GoType × GoValue × Bool)) (s : RandS),
      greenRunItems f sg cur (items₁ ++ items₂) s =
        (greenRunItems f sg cur items₁ s).bind fun r =>
          (greenRunItems f sg cur items₂ r.2).map fun q => (r.1 ++ q.1, q.2)) := by
  refine ⟨?_, ?_, greenRunItems_append⟩
  · intro f sg cur flags t v canSet s h
    exact doGreenRun_depth_stop f sg cur flags t v canSet s h
  · intro f sg t obj s d hd hk
    rw [GreenRun]
    simp only [hk, ne_eq, not_true_eq_false, if_false]
    exact doGreenRun_depth_stop _ sg 0 0 _ _ _ s (by simp [MaxDepth]; omega)

/-- Witness for C3: with `SetMaxDepth(0)` the default runner leaves a pointed-to
`int` exactly as it was, with no error and no stream consumption. -/
theorem maxDepth_noop_witness :
    GreenRun (MaxDepth defaultGreenRunner 0) sgNone (.ptr .int) (.vPtr (.vInt 3))
      (fun _ => 0) = .ok (.vInt 3, fun _ => 0) :=
  maxDepth_noop.2.1 defaultGreenRunner sgNone (.ptr .int) (.vPtr (.vInt 3))
    (fun _ => 0) 0 (by norm_num) rfl

/-! ## C7: fatal generation errors -/

/-- C7: every entry point panics when its target is not a pointer, and a
structural step that reaches a channel, function, interface, complex or
unsafe-pointer slot (no custom handler applies) aborts the fill with an
error. -/
theorem generation_errors :
    (∀ f sg t obj s cur, kindOf t ≠ Kind.ptr →
      GreenRun f sg t obj s = .error "needed ptr!" ∧
      GreenRunNoCustom f sg t obj s = .error "needed ptr!" ∧
      ContinueGreenRun f sg cur t obj s = .error "needed ptr!" ∧
      ContinueGreenRunNoCustom f sg cur t obj s = .error "needed ptr!") ∧
    (∀ (f : GreenRunner) (sg : SelfGenEnv) (cur : Nat) (t : GoType)
      (v : GoValue) (s : RandS), (cur : Int) < f.maxDepth →
      customPhase f sg 0 t v s = none →
      ((kindOf t = Kind.chan ∨ kindOf t = Kind.func ∨ kindOf t = Kind.iface) →
        doGreenRun f sg cur 0 t v true s = .error "Can not handle value") ∧
      ((kindOf t = Kind.complex ∨ kindOf t = Kind.rawptr) →
        doGreenRun f sg cur 0 t v true s = .error "unimplemented")) := by
  constructor
  · intro f sg t obj s cur h
    exact ⟨by simp [GreenRun, h], by simp [GreenRunNoCustom, h],
      by simp [ContinueGreenRun, h], by simp [ContinueGreenRunNoCustom, h]⟩
  · intro f sg cur t v s hcur hcp
    constructor
    · intro hk
      rw [doGreenRun]
      rcases hk with hk | hk | hk <;>
        simp [show ¬ f.maxDepth ≤ (cur : Int) by omega, hcp, hk, fillFuncMap]
    · intro hk
      rw [doGreenRun]
      rcases hk with hk | hk <;>
        simp [show ¬ f.maxDepth ≤ (cur : Int) by omega, hcp, hk, fillFuncMap]

/-- Witness for C7: filling a non-pointer target fails, and a channel slot
reached structurally under the default runner fails. -/
theorem generation_errors_witness :
    GreenRun defaultGreenRunner sgNone .int (.vInt 0) (fun _ => 0) =
      .error "needed ptr!" ∧
    doGreenRun defaultGreenRunner sgNone 0 0 .chan .vChan true (fun _ => 0) =
      .error "Can not handle value" := by
  constructor
  · exact ((generation_errors.1 defaultGreenRunner sgNone .int (.vInt 0)
      (fun _ => 0) 0) (by decide)).1
  · exact ((generation_errors.2 defaultGreenRunner sgNone 0 .chan .vChan
      (fun _ => 0) (by norm_num [defaultGreenRunner]) rfl).1) (Or.inl rfl)

/-! ## C1: override lookup order -/

/-- A defined map type `type MyMap map[int]int`. -/
def MyMap : GoType := .named 1 (.map .int .int)

/-- An override for the map type `MyMap` itself (legal: its first parameter
kind is map), writing the entry `9 ↦ 9`. -/
def ovrMapFn : CustomFn := fun _ s => (.vMap (.cons (.vInt 9) (.vInt 9) .nil), s)

/-- A self-generation method on `*MyMap`, writing `7 ↦ 7` through the
receiver. -/
def selfGenFn : CustomFn := fun _ s => (.vPtr (.vMap (.cons (.vInt 7) (.vInt 7) .nil)), s)

/-- The program in which `MyMap` has a pointer-receiver `GreenRun` method, so
exactly `*MyMap` implements the `Interface` capability. -/
def sgMyMap : SelfGenEnv := fun t => if t = .ptr MyMap then some selfGenFn else none

/-- The `Funcs` argument `func(m MyMap, c greenrun.Continue)`. -/
def entryMyMap : FuncsEntry where
  isFunc := true
  numIn := 2
  numOut := 0
  in0 := MyMap
  in1IsContinue := true
  impl := ovrMapFn

/-- The default runner with the `MyMap` override registered. -/
def fMyMap : GreenRunner :=
  { defaultGreenRunner with greenrunFuncs := [(MyMap, ovrMapFn)] }

/-- Counterexample for C1: `MyMap` has a registered override and `*MyMap`
implements self-generation, yet filling a `MyMap` slot runs the
self-generation method (writing `7 ↦ 7`), not the override (which would
write `9 ↦ 9`): the address-phase lookup tries override, self-generation
and default for `*MyMap` before any lookup for `MyMap` itself, so
self-generation is not checked after all override lookups. -/
theorem override_lookup_order_counterexample :
    Funcs defaultGreenRunner [entryMyMap] = .ok fMyMap ∧
    lookupFn fMyMap.greenrunFuncs MyMap = some ovrMapFn ∧
    sgMyMap (.ptr MyMap) = some selfGenFn ∧
    doGreenRun fMyMap sgMyMap 0 0 MyMap .vNilMap true (fun _ => 0) =
      .ok (.vMap (.cons (.vInt 7) (.vInt 7) .nil), fun _ => 0) ∧
    (ovrMapFn (allocIfNil MyMap .vNilMap) (fun _ => 0)).1 =
      .vMap (.cons (.vInt 9) (.vInt 9) .nil) ∧
    (GoValue.vMap (.cons (.vInt 7) (.vInt 7) .nil)) ≠
      .vMap (.cons (.vInt 9) (.vInt 9) .nil) := by
  refine ⟨rfl, rfl, rfl, ?_, rfl, by decide⟩
  have hc : customPhase fMyMap sgMyMap 0 MyMap .vNilMap (fun _ => 0) =
      some (.vMap (.cons (.vInt 7) (.vInt 7) .nil), fun _ => 0) := rfl
  exact doGreenRun_custom_some fMyMap sgMyMap 0 0 MyMap .vNilMap (fun _ => 0) _ _
    (by decide) hc

/-- C1 (amended): the custom lookup runs in two phases — all three lookups
(override, self-generation, built-in default) for the reference-to-slot type
first, then the same three for the slot's own type.  In particular an
override registered for the reference type `*T` always wins (conjunct 1),
and an override registered for the slot's own pointer-or-map type is invoked
whenever the whole reference-type phase failed (conjunct 2). -/
theorem override_lookup_order :
    (∀ (f : GreenRunner) (sg : SelfGenEnv) (cur : Nat) (t : GoType)
      (v : GoValue) (s : RandS) (g : CustomFn), (cur : Int) < f.maxDepth →
      lookupFn f.greenrunFuncs (.ptr t) = some g →
      doGreenRun f sg cur 0 t v true s =
        .ok (derefOr (g (.vPtr v) s).1 v, (g (.vPtr v) s).2)) ∧
    (∀ (f : GreenRunner) (sg : SelfGenEnv) (cur : Nat) (t : GoType)
      (v : GoValue) (s : RandS) (g : CustomFn), (cur : Int) < f.maxDepth →
      tryCustom f sg (.ptr t) (.vPtr v) false s = none →
      lookupFn f.greenrunFuncs t = some g →
      (kindOf t = Kind.ptr ∨ kindOf t = Kind.map) →
      doGreenRun f sg cur 0 t v true s = .ok (g (allocIfNil t v) s)) := by
  constructor
  · intro f sg cur t v s g hcur hg
    exact doGreenRun_ptr_override f sg cur t v s g hcur hg
  · intro f sg cur t v s g hcur h1 hg hk
    have hc : customPhase f sg 0 t v s = some (g (allocIfNil t v) s) := by
      unfold customPhase
      rw [h1]
      rcases hk with hk | hk <;>
        simp [tryCustom, hg, tryCustomCall, hk, flagNoCustomGreenRun]
    exact doGreenRun_custom_some f sg cur 0 t v s _ _ (by omega) hc

/-- The default runner with an override for `*int` registered. -/
def fPtrInt : GreenRunner :=
  { defaultGreenRunner with greenrunFuncs := [(GoType.ptr .int, entryPtrInt.impl)] }

/-- Witness for C1: with the `*int` override of `entryPtrInt` registered,
filling an `int` slot writes `9` — the override, not the built-in integer
generator. -/
theorem override_lookup_order_witness :
    doGreenRun fPtrInt sgNone 0 0 .int (.vInt 0) true (fun _ => 0) =
      .ok (.vInt 9, fun _ => 0) :=
  override_lookup_order.1 fPtrInt sgNone 0 .int (.vInt 0) (fun _ => 0)
    entryPtrInt.impl (by decide) rfl

/-! ## C5: FillWithoutOverrides suppression is not recursive -/

theorem customPhase_flag (f : GreenRunner) (sg : SelfGenEnv) (t : GoType)
    (v : GoValue) (s : RandS) :
    customPhase f sg flagNoCustomGreenRun t v s = none := by
  simp [customPhase, flagNoCustomGreenRun]

/-- C5: the no-override entry points differ from the ordinary ones only at
the outermost step.  Conjunct 1: whenever no custom handler applies to the
top-level slot, the flagged and unflagged runs coincide exactly (so
suppression changes nothing but the outermost lookup).  Conjunct 2: under
the flag, a struct field whose reference type has a registered override
still invokes that override during structural recursion.  Conjunct 3:
`FillWithoutOverrides` and `Continue.ContinueWithoutOverrides` agree with
`Fill` and `Continue.Continue` whenever no custom handler applies to the
top-level target. -/
theorem noCustom_outermost_only :
    (∀ (f : GreenRunner) (sg : SelfGenEnv) (cur : Nat) (t : GoType)
      (v : GoValue) (canSet : Bool) (s : RandS),
      customPhase f sg 0 t v s = none →
      doGreenRun f sg cur 0 t v canSet s =
        doGreenRun f sg cur flagNoCustomGreenRun t v canSet s) ∧
    (∀ (f : GreenRunner) (sg : SelfGenEnv) (cur : Nat) (ft : GoType)
      (fv : GoValue) (s : RandS) (g : CustomFn),
      (cur : Int) + 1 < f.maxDepth →
      lookupFn f.greenrunFuncs (.ptr ft) = some g →
      doGreenRun f sg cur flagNoCustomGreenRun (.struct (.cons true ft .nil))
        (.vStruct (.cons fv .nil)) true s =
        .ok (.vStruct (.cons (derefOr (g (.vPtr fv) s).1 fv) .nil),
          (g (.vPtr fv) s).2)) ∧
    (∀ (f : GreenRunner) (sg : SelfGenEnv) (cur : Nat) (t : GoType)
      (obj : GoValue) (s : RandS),
      customPhase f sg 0 (elemType t) (derefOr obj (zeroValue (elemType t))) s = none →
      GreenRunNoCustom f sg t obj s = GreenRun f sg t obj s ∧
      ContinueGreenRunNoCustom f sg cur t obj s = ContinueGreenRun f sg cur t obj s) := by
  have key : ∀ (f : GreenRunner) (sg : SelfGenEnv) (cur : Nat) (t : GoType)
      (v : GoValue) (canSet : Bool) (s : RandS),
      customPhase f sg 0 t v s = none →
      doGreenRun f sg cur 0 t v canSet s =
        doGreenRun f sg cur flagNoCustomGreenRun t v canSet s := by
    intro f sg cur t v canSet s hcp
    rw [doGreenRun, doGreenRun]
    by_cases hd : f.maxDepth ≤ (cur : Int)
    · simp [hd]
    · simp [hd, hcp, customPhase_flag]
  refine ⟨key, ?_, ?_⟩
  · intro f sg cur ft fv s g hcur hg
    have hstep := doGreenRun_ptr_override f sg (cur + 1) ft fv s g (by push_cast; omega) hg
    rw [doGreenRun]
    simp only [show ¬ f.maxDepth ≤ (cur : Int) by omega, dite_false]
    simp only [customPhase_flag, fillFuncMap, kindOf, structFields, structValues,
      structItems, Bool.true_eq_false, if_false]
    simp only [greenRunItems, hstep]
    rfl
  · intro f sg cur t obj s hcp
    constructor
    · rw [GreenRun, GreenRunNoCustom]
      by_cases hk : kindOf t ≠ Kind.ptr
      · simp [hk]
      · simp only [hk, if_false]
        exact (key f sg 0 _ _ _ s hcp).symm
    · rw [ContinueGreenRun, ContinueGreenRunNoCustom]
      by_cases hk : kindOf t ≠ Kind.ptr
      · simp [hk]
      · simp only [hk, if_false]
        exact (key f sg cur _ _ _ s hcp).symm

/-- Witness for C5: under the default runner with the `*int` override of
`entryPtrInt`, `GreenRunNoCustom` on a struct with one `int` field still
invokes the override for the field (result `9`), even though the same
override is skipped at the top level for an `int` target. -/
theorem noCustom_outermost_only_witness :
    doGreenRun fPtrInt sgNone 0 flagNoCustomGreenRun (.struct (.cons true .int .nil))
      (.vStruct (.cons (.vInt 0) .nil)) true (fun _ => 0) =
      .ok (.vStruct (.cons (.vInt 9) .nil), fun _ => 0) :=
  noCustom_outermost_only.2.1 fPtrInt sgNone 0 .int (.vInt 0) (fun _ => 0)
    entryPtrInt.impl (by decide) rfl

/-! ## C2: nil probability zero -/

/-- Counterexample for C2: configure the default runner with
`NilChance(0)` and `NumElements(1,1)` and fill `TTest` from the stream whose
every raw draw is `0`, so every `Float64()` draw is exactly `0`.  Because
`genShouldFill` tests `Float64() > nilChance` strictly, the draw `0` is not
greater than the nil probability `0`, and all three fields — pointer, map and
slice — come out nil. -/
theorem nilChance_zero_counterexample :
    NilChance defaultGreenRunner 0 = .ok fNil0 ∧
    NumElements fNil0 1 1 = .ok fOne ∧
    runValue (GreenRun fOne sgNone (.ptr TTest) (.vPtr (zeroValue TTest)) (fun _ => 0)) =
      .ok (.vStruct (.cons .vNilPtr (.cons .vNilMap (.cons .vNilSlice .nil)))) := by
  refine ⟨rfl, rfl, ?_⟩
  simp [runValue, GreenRun, doGreenRun, greenRunItems, greenRunMapEntries, customPhase,
    tryCustom, tryCustomCall, allocIfNil, lookupFn, fillFuncMap, genShouldFill,
    genElementCount, randFloat64, randIntn, randUint64, randUint32, randInt,
    randString, randStringRunes, toInt64, rhead, rtail, kindOf, elemType, keyType,
    arrayLen, structFields, structValues, structItems, arrayItems, zeroValue,
    zeroFields, isNilValue, derefOr, GoValues.ofList, GoValues.toList,
    GoValues.replicate, GoEntries.set, flagNoCustomGreenRun, defaultGreenRunner,
    fNil0, fOne, TTest, sgNone, timeTimeType, Except.map]

theorem genShouldFill_fOne (s : RandS) (h : s 0 % 2 ^ 53 ≠ 0) :
    genShouldFill fOne s = (true, rtail s) := by
  have h1 : (0 : Rat) < ((s 0 % 2 ^ 53 : Nat) : Rat) / ((2 ^ 53 : Nat) : Rat) :=
    div_pos (by exact_mod_cast Nat.pos_of_ne_zero h) (by norm_num)
  have h0 : fOne.nilChance = 0 := rfl
  simp [genShouldFill, randFloat64, rhead, h0, h1]
  omega

theorem doGreenRun_fOne_int (cur : Nat) (hc : cur < 100) (v : GoValue) (s : RandS) :
    doGreenRun fOne sgNone cur 0 .int v true s =
      .ok (.vInt (toInt64 (randUint64 s).1), rtail (rtail s)) := by
  have hd : ¬ fOne.maxDepth ≤ (cur : Int) := by
    rw [show fOne.maxDepth = 100 from rfl]
    omega
  rw [doGreenRun]
  simp [hd, show customPhase fOne sgNone 0 .int v s = none from rfl,
    fillFuncMap, kindOf]
  rfl

theorem doGreenRun_fOne_ptrInt (cur : Nat) (hc : cur + 1 < 100) (v : GoValue)
    (s : RandS) (h0 : s 0 % 2 ^ 53 ≠ 0) :
    doGreenRun fOne sgNone cur 0 (.ptr .int) v true s =
      .ok (.vPtr (.vInt (toInt64 (randUint64 (rtail s)).1)),
        rtail (rtail (rtail s))) := by
  have hd : ¬ fOne.maxDepth ≤ (cur : Int) := by
    rw [show fOne.maxDepth = 100 from rfl]
    omega
  rw [doGreenRun]
  simp only [hd, dite_false,
    show customPhase fOne sgNone 0 (.ptr .int) v s = none from rfl,
    show fillFuncMap (kindOf (.ptr .int)) = none from rfl,
    show kindOf (.ptr .int) = Kind.ptr from rfl,
    genShouldFill_fOne s h0,
    show elemType (.ptr .int) = .int from rfl,
    show zeroValue GoType.int = .vInt 0 from rfl]
  rw [doGreenRun_fOne_int (cur + 1) (by omega) (.vInt 0) (rtail s)]
  rfl

theorem doGreenRun_fOne_mapII (cur : Nat) (hc : cur + 1 < 100) (v : GoValue)
    (s : RandS) (h0 : s 0 % 2 ^ 53 ≠ 0) :
    doGreenRun fOne sgNone cur 0 (.map .int .int) v true s =
      .ok (.vMap (.cons (.vInt (toInt64 (randUint64 (rtail s)).1))
          (.vInt (toInt64 (randUint64 (rtail (rtail (rtail s)))).1)) .nil),
        rtail (rtail (rtail (rtail (rtail s))))) := by
  have hd : ¬ fOne.maxDepth ≤ (cur : Int) := by
    rw [show fOne.maxDepth = 100 from rfl]
    omega
  rw [doGreenRun]
  simp only [hd, dite_false,
    show customPhase fOne sgNone 0 (.map .int .int) v s = none from rfl,
    show fillFuncMap Kind.map = none from rfl,
    show kindOf (.map .int .int) = Kind.map from rfl,
    genShouldFill_fOne s h0,
    show genElementCount fOne (rtail s) = (1, rtail s) from rfl,
    show keyType (.map .int .int) = .int from rfl,
    show elemType (.map .int .int) = .int from rfl,
    show (1 : Int).toNat = 1 from rfl,
    greenRunMapEntries,
    doGreenRun_fOne_int (cur + 1) (by omega)]
  rfl

theorem doGreenRun_fOne_sliceInt (cur : Nat) (hc : cur + 1 < 100) (v : GoValue)
    (s : RandS) (h0 : s 0 % 2 ^ 53 ≠ 0) :
    doGreenRun fOne sgNone cur 0 (.slice .int) v true s =
      .ok (.vSlice (.cons (.vInt (toInt64 (randUint64 (rtail s)).1)) .nil),
        rtail (rtail (rtail s))) := by
  have hd : ¬ fOne.maxDepth ≤ (cur : Int) := by
    rw [show fOne.maxDepth = 100 from rfl]
    omega
  rw [doGreenRun]
  simp only [hd, dite_false,
    show customPhase fOne sgNone 0 (.slice .int) v s = none from rfl,
    show fillFuncMap Kind.slice = none from rfl,
    show kindOf (.slice .int) = Kind.slice from rfl,
    genShouldFill_fOne s h0,
    show genElementCount fOne (rtail s) = (1, rtail s) from rfl,
    show elemType (.slice .int) = .int from rfl,
    show (1 : Int).toNat = 1 from rfl,
    List.replicate, greenRunItems,
    doGreenRun_fOne_int (cur + 1) (by omega)]
  rfl

/-- C2 (amended): with `NilChance(0)` and `NumElements(1,1)`, filling
`TTest` from any stream in which every raw draw yields a strictly positive
`Float64()` value produces a non-nil pointer field, a map field with exactly
one entry and a slice field with exactly one element.  (The counterexample
shows the restriction on the stream is necessary: a `Float64()` draw of
exactly `0` defeats the strict comparison `Float64() > 0`.) -/
theorem nilChance_zero_one_element (s : RandS) (hs : ∀ i, s i % 2 ^ 53 ≠ 0) :
    ∃ (p k kv e : GoValue) (s₁ : RandS),
      GreenRun fOne sgNone (.ptr TTest) (.vPtr (zeroValue TTest)) s =
        .ok (.vStruct (.cons (.vPtr p)
          (.cons (.vMap (.cons k kv .nil))
            (.cons (.vSlice (.cons e .nil)) .nil))), s₁) := by
  have main : doGreenRun fOne sgNone 0 0 TTest (zeroValue TTest) true s =
      .ok (.vStruct (.cons (.vPtr (.vInt (toInt64 (randUint64 (rtail s)).1)))
        (.cons (.vMap (.cons
            (.vInt (toInt64 (randUint64 (rtail (rtail (rtail (rtail s))))).1))
            (.vInt (toInt64 (randUint64
              (rtail (rtail (rtail (rtail (rtail (rtail s))))))).1)) .nil))
          (.cons (.vSlice (.cons (.vInt (toInt64 (randUint64
              (rtail (rtail (rtail (rtail (rtail (rtail (rtail (rtail (rtail s)))))))))).1))
            .nil)) .nil))),
        rtail (rtail (rtail (rtail (rtail (rtail (rtail (rtail (rtail (rtail (rtail s))))))))))) := by
    rw [doGreenRun]
    rw [dif_neg (show ¬ fOne.maxDepth ≤ ((0 : Nat) : Int) from by decide)]
    simp only [show customPhase fOne sgNone 0 TTest (zeroValue TTest) s = none from rfl,
      show fillFuncMap Kind.struct = none from rfl,
      show kindOf TTest = Kind.struct from rfl,
      show structItems (structFields TTest) (structValues (zeroValue TTest)) =
        [(.ptr .int, .vNilPtr, true), (.map .int .int, .vNilMap, true),
          (.slice .int, .vNilSlice, true)] from rfl,
      Bool.true_eq_false, if_false, greenRunItems,
      doGreenRun_fOne_ptrInt 1 (by omega) .vNilPtr s (hs 0),
      doGreenRun_fOne_mapII 1 (by omega) .vNilMap (rtail (rtail (rtail s))) (hs 3),
      doGreenRun_fOne_sliceInt 1 (by omega) .vNilSlice
        (rtail (rtail (rtail (rtail (rtail (rtail (rtail (rtail s)))))))) (hs 8)]
    simp only [GoValues.ofList]
  exact ⟨_, _, _, _, _, main⟩

/-- Witness for C2 (amended): the all-ones stream satisfies the positivity
hypothesis, so the fill produces the populated shape. -/
theorem nilChance_zero_one_element_witness :
    ∃ (p k kv e : GoValue) (s₁ : RandS),
      GreenRun fOne sgNone (.ptr TTest) (.vPtr (zeroValue TTest)) (fun _ => 1) =
        .ok (.vStruct (.cons (.vPtr p)
          (.cons (.vMap (.cons k kv .nil))
            (.cons (.vSlice (.cons e .nil)) .nil))), s₁) :=
  nilChance_zero_one_element (fun _ => 1) (fun _ => show (1 : Nat) % 2 ^ 53 ≠ 0 by decide)

end Greenrun
